import Mathlib

/-!
# Verification of the Yolo5 SQS worker (`app.py`)

A shallow embedding of the job-processing pipeline of `app.py`:
`process_job` (decode → fetch → infer → upload → encode → persist →
notify → acknowledge) and the consumer loop's error boundary.

External services (SQS, S3, MongoDB, the YOLO model, the HTTP callback,
the local filesystem written by the model) are modelled by an `Env`
record that fixes the outcome of each external call; the observable
effects of one run are collected in a `Trace` record.  Python's
`json.loads` is modelled by its result (`Option JVal`: `none` when the
body is unparseable and the call raises); machine floats never take part
in arithmetic here — they are only parsed and stored — so `float` values
are denoted by rationals, and `float()` / `int()` are embedded by
parsers restricted to plain decimal notation (no underscores, `inf` or
`nan`, which the engine's output files never contain).
-/

set_option maxRecDepth 4000

namespace Yolo5

/-- JSON values, as returned by `json.loads` on a parseable body. -/
inductive JVal where
  | jnull
  | jbool (b : Bool)
  | jnum (q : ℚ)
  | jstr (s : String)
  | jarr (elems : List JVal)
  | jobj (fields : List (String × JVal))

/-- Python truthiness of a JSON-derived value (`not x` in `app.py` line 143
tests the negation of this). -/
def truthy : JVal → Bool
  | .jnull => false
  | .jbool b => b
  | .jnum q => decide (q ≠ 0)
  | .jstr s => decide (s ≠ "")
  | .jarr elems => !elems.isEmpty
  | .jobj fields => !fields.isEmpty

/-- `dict.get k` on the object's fields: `none` models Python's `None`
for a missing key.  `json.loads` keeps the last of duplicate keys. -/
def lookupField (fields : List (String × JVal)) (k : String) : Option JVal :=
  (fields.reverse.find? (fun p => p.1 == k)).map (fun p => p.2)

/-- Truthiness of the result of `job.get(...)`: `None` (missing key) is falsy. -/
def truthyOpt : Option JVal → Bool
  | none => false
  | some v => truthy v

/-- Outcome of one `insert_one` call against MongoDB.  `transient` stands for
`errors.NotPrimaryError` / `errors.ServerSelectionTimeoutError` (the classes
caught at line 224); `other` is any other exception. -/
inductive MongoOutcome where
  | ok
  | transient
  | other
deriving DecidableEq

/-- Outcome of the `requests.post` notification call: an HTTP response with a
status code, or a transport-level exception. -/
inductive NotifyOutcome where
  | resp (status : ℕ)
  | exn

/-- Labels for the Python exceptions that can escape a stage of
`process_job` and reach its top-level `except Exception` handler. -/
inductive PyErr where
  | jsonDecodeError
  | attributeError
  | typeError
  | predictError
  | valueError
  | keyError
  | indexError
  | mongoError
  | deleteError

/-- One bounding-box label appended at lines 198–204.  The Python dict key
`"class"` is the field `«class»`. -/
structure Label where
  «class» : String
  cx : ℚ
  cy : ℚ
  width : ℚ
  height : ℚ
deriving DecidableEq

/-- The `prediction_summary` document inserted into MongoDB (lines 209–216). -/
structure PredictionRecord where
  «_id» : String
  chat_id : JVal
  original_img_path : String
  predicted_img_path : String
  labels : List Label
  time : ℚ

/-- The ASCII whitespace characters `str.strip()` removes (sufficient for
engine output lines). -/
def isPySpace (c : Char) : Bool :=
  c == ' ' || c == '\t' || c == '\n' || c == '\r' || c == '\x0b' || c == '\x0c'

/-- Drop the longest prefix of whitespace characters. -/
def dropSpaces : List Char → List Char
  | [] => []
  | c :: cs => if isPySpace c then dropSpaces cs else c :: cs

/-- `str.strip()`: remove leading and trailing whitespace. -/
def pyStrip (s : String) : String :=
  String.mk ((dropSpaces ((dropSpaces s.data.reverse)).reverse))

/-- Split a character list at every occurrence of `sep`
(Python `str.split(sep)` semantics: `"".split(" ") == [""]`,
consecutive separators yield empty fields). -/
def splitChar (sep : Char) : List Char → List (List Char)
  | [] => [[]]
  | c :: cs =>
    match splitChar sep cs with
    | [] => [[c]]
    | g :: gs => if c == sep then [] :: g :: gs else (c :: g) :: gs

/-- `line.split(" ")` at line 197: split on every single space. -/
def pySplit (s : String) : List String :=
  (splitChar ' ' s.data).map String.mk

/-- Decimal digits of a character list read as a natural number
(caller guarantees all characters are digits). -/
def digitsToNat (ds : List Char) : ℕ :=
  ds.foldl (fun a c => a * 10 + (c.toNat - 48)) 0

/-- Parse a non-empty all-digit character list. -/
def parseDigits (cs : List Char) : Option ℕ :=
  if cs ≠ [] ∧ cs.all Char.isDigit then some (digitsToNat cs) else none

/-- Python `int(s)` on plain decimal notation: optional surrounding
whitespace, optional sign, at least one digit; anything else raises
`ValueError`, modelled as `none`. -/
def pyInt (s : String) : Option Int :=
  match (pyStrip s).toList with
  | '-' :: rest => (parseDigits rest).map (fun n => -(n : Int))
  | '+' :: rest => (parseDigits rest).map (fun n => (n : Int))
  | cs => (parseDigits cs).map (fun n => (n : Int))

/-- Split a leading run of digits from a character list. -/
def takeDigits : List Char → List Char × List Char
  | [] => ([], [])
  | c :: cs =>
    if c.isDigit then
      let (ds, rest) := takeDigits cs
      (c :: ds, rest)
    else ([], c :: cs)

/-- Signed all-digit integer (exponent part of a float literal). -/
def parseSignedDigits : List Char → Option Int
  | '-' :: ds => (parseDigits ds).map (fun n => -(n : Int))
  | '+' :: ds => (parseDigits ds).map (fun n => (n : Int))
  | ds => (parseDigits ds).map (fun n => (n : Int))

/-- Unsigned mantissa with optional fraction and optional exponent. -/
def pyFloatCore (cs : List Char) : Option ℚ :=
  let (ip, r1) := takeDigits cs
  let (fp, r2) :=
    match r1 with
    | '.' :: rest => takeDigits rest
    | _ => ([], r1)
  if ip = [] ∧ fp = [] then none
  else
    let mant : ℚ := (digitsToNat ip : ℚ) + (digitsToNat fp : ℚ) / ((10 : ℚ) ^ fp.length)
    match r2 with
    | [] => some mant
    | 'e' :: rest => (parseSignedDigits rest).map (fun e => mant * (10 : ℚ) ^ e)
    | 'E' :: rest => (parseSignedDigits rest).map (fun e => mant * (10 : ℚ) ^ e)
    | _ => none

/-- Python `float(s)` on finite decimal notation (the only form the engine
writes): optional whitespace and sign, digits with optional fraction and
optional exponent.  A parse failure raises `ValueError`, modelled `none`. -/
def pyFloat (s : String) : Option ℚ :=
  match (pyStrip s).toList with
  | '-' :: rest => (pyFloatCore rest).map (fun q => -q)
  | '+' :: rest => pyFloatCore rest
  | cs => pyFloatCore cs

/-- The Class Name Table: `names` is the dict loaded from
`data/coco128.yaml` (external configuration, out of core scope), mapping
integer class index to label string.  `names[k]` raises `KeyError` for a
missing key, modelled `none`.  Last binding wins, like a Python dict. -/
def dictLookup (tbl : List (Int × String)) (k : Int) : Option String :=
  (tbl.reverse.find? (fun p => p.1 == k)).map (fun p => p.2)

/-- `float(l[i])` with Python semantics: a missing index raises
`IndexError`, an unparseable field raises `ValueError` (lines 200–203). -/
def pyFloatAt (l : List String) (i : ℕ) : Except PyErr ℚ :=
  match l.get? i with
  | none => .error .indexError
  | some s =>
    match pyFloat s with
    | none => .error .valueError
    | some q => .ok q

/-- One iteration of the parsing loop at lines 195–204.  A whitespace-only
line is skipped (`ok none`).  Otherwise `l = line.split(" ")` and the dict
fields are evaluated in source order: `int(l[0])`, `names[...]`, then
`float(l[1])` … `float(l[4])`; the first failure raises. -/
def encodeLine (names : List (Int × String)) (line : String) :
    Except PyErr (Option Label) :=
  if pyStrip line = "" then .ok none
  else
    match pyInt ((pySplit line).headD "") with
    | none => .error .valueError
    | some idx =>
      match dictLookup names idx with
      | none => .error .keyError
      | some cls => do
        let cx ← pyFloatAt (pySplit line) 1
        let cy ← pyFloatAt (pySplit line) 2
        let w ← pyFloatAt (pySplit line) 3
        let h ← pyFloatAt (pySplit line) 4
        pure (some { «class» := cls, cx := cx, cy := cy, width := w, height := h })

/-- The `for line in lines` loop, accumulating `labels` by appending.
Any raising line aborts the loop (and, upstream, the whole job). -/
def encodeLoop (names : List (Int × String)) :
    List String → List Label → Except PyErr (List Label)
  | [], acc => .ok acc
  | line :: rest, acc =>
    match encodeLine names line with
    | .error e => .error e
    | .ok none => encodeLoop names rest acc
    | .ok (some lab) => encodeLoop names rest (acc ++ [lab])

/-- Lines 189–206: the labels-file contents are `some lines`
(`f.read().splitlines()`) when `pred_summary_path.exists()`, `none`
otherwise; a missing file only logs and leaves `labels = []`. -/
def encodeLabels (names : List (Int × String)) (fileLines : Option (List String)) :
    Except PyErr (List Label) :=
  match fileLines with
  | none => .ok []
  | some lines => encodeLoop names lines []

/-- Observable effects of one `process_job` run. -/
structure Trace where
  /-- the validation check at line 143 passed (execution proceeded past decode) -/
  decodedOk : Bool := false
  /-- `sqs_client.delete_message` was called (line 145 or line 245) -/
  deleteCalled : Bool := false
  /-- the delete succeeded: the message was acknowledged (removed from the queue) -/
  deleted : Bool := false
  /-- `s3_client.download_file` was called (line 156) -/
  downloadAttempted : Bool := false
  /-- `s3_client.upload_file` was called (line 182) -/
  uploadAttempted : Bool := false
  /-- number of `insert_one` calls made by the retry loop (line 220) -/
  mongoAttempts : ℕ := 0
  /-- the successfully inserted document, if any -/
  inserted : Option PredictionRecord := none
  /-- backoff sleeps (seconds) performed inside the retry loop, in order (line 227) -/
  sleeps : List ℕ := []
  /-- `requests.post` to the callback URL was called (line 236) -/
  notifyAttempted : Bool := false
  /-- the `predictionId` carried in the POST body -/
  notifiedId : Option String := none
  /-- the `timeout=` argument passed to the POST -/
  notifyTimeout : ℕ := 0
  /-- the notification attempt was logged as success (`status_code == 200`) -/
  notifyOk : Bool := false
  /-- an exception reached the top-level handler at line 248 -/
  caughtTop : Bool := false
  /-- the handler's `time.sleep(1)` ran (line 250) -/
  handlerPaused : Bool := false

/-- Outcomes of the external calls a single run can make, fixed up front:
the queue, S3, MongoDB, the model (and the labels file it writes) and the
HTTP callback are external collaborators. -/
structure Env where
  /-- `str(uuid.uuid4())` for this attempt (line 141) -/
  uuid : String
  /-- the Class Name Table `names` (line 105, external configuration) -/
  names : List (Int × String)
  /-- `s3_client.download_file` succeeds (line 156) -/
  downloadOk : Bool
  /-- `model.predict` returns without raising (line 163) -/
  predictOk : Bool
  /-- `splitlines()` of the labels file, `none` when the file does not exist -/
  labelLines : Option (List String)
  /-- `s3_client.upload_file` succeeds (line 182) -/
  uploadOk : Bool
  /-- outcome of the `insert_one` call at retry index `attempt` (line 220) -/
  mongo : ℕ → MongoOutcome
  /-- outcome of the `requests.post` notification (line 236) -/
  notify : NotifyOutcome
  /-- `sqs_client.delete_message` succeeds (lines 145 and 245) -/
  deleteOk : Bool
  /-- `time.time()` at line 215 -/
  now : ℚ

/-- Result of the `try` body: it either returns (possibly via an early
`return`) or raises, in which case the raised exception and the effects
performed so far are handed to the top-level handler. -/
inductive BodyResult where
  | done (t : Trace)
  | raised (e : PyErr) (t : Trace)

/-- Lines 217–229: `for attempt in range(max_retries)` over the given
index list.  `ok` breaks, `transient` is caught, logged, and (when
`attempt < max_retries - 1`) sleeps `2 ** attempt`; any `other`
exception propagates out of the loop.  The `for`-`else` clause only
logs, so loop exhaustion has no further trace effect. -/
def persistLoop (mongo : ℕ → MongoOutcome) (record : PredictionRecord) :
    List ℕ → Trace → Trace × Option PyErr
  | [], t => (t, none)
  | attempt :: rest, t =>
    let t1 := { t with mongoAttempts := t.mongoAttempts + 1 }
    match mongo attempt with
    | .ok => ({ t1 with inserted := some record }, none)
    | .transient =>
      let t2 := if attempt < 5 - 1 then { t1 with sleeps := t1.sleeps ++ [2 ^ attempt] } else t1
      persistLoop mongo record rest t2
    | .other => (t1, some .mongoError)

/-- The `status_code == 200` check at line 237: whether the notification
attempt is logged as a success. -/
def notifyOkOf : NotifyOutcome → Bool
  | .resp 200 => true
  | _ => false

/-- Lines 231–246: notify Polybot (any exception or non-200 status is only
logged) and then delete the message from SQS. -/
def afterPersist (env : Env) (t : Trace) : BodyResult :=
  let t1 := { t with
    notifyAttempted := true
    notifiedId := some env.uuid
    notifyTimeout := 10
    notifyOk := notifyOkOf env.notify }
  if env.deleteOk then .done { t1 with deleteCalled := true, deleted := true }
  else .raised .deleteError { t1 with deleteCalled := true }

/-- The tail of the pipeline from the Mongo retry loop on: a non-transient
insert failure propagates (lines 217–229), otherwise notify-and-delete. -/
def persistAndFinish (env : Env) (rec : PredictionRecord) (t : Trace) : BodyResult :=
  match persistLoop env.mongo rec (List.range 5) t with
  | (t2, some e) => .raised e t2
  | (t2, none) => afterPersist env t2

/-- Lines 179–229: upload the predicted image (failure logs and
*returns*, skipping every later stage), parse the labels file, build
`prediction_summary` and run the Mongo retry loop. -/
def afterPredict (env : Env) (img_name : String) (chat_id : JVal) (t : Trace) :
    BodyResult :=
  let predicted_s3_key := "predictions/" ++ env.uuid ++ "/" ++ img_name
  let t1 := { t with uploadAttempted := true }
  if !env.uploadOk then .done t1
  else
    match encodeLabels env.names env.labelLines with
    | .error e => .raised e t1
    | .ok labels =>
      let prediction_summary : PredictionRecord :=
        { «_id» := env.uuid
          chat_id := chat_id
          original_img_path := img_name
          predicted_img_path := predicted_s3_key
          labels := labels
          time := env.now }
      persistAndFinish env prediction_summary t1

/-- Lines 150–177: download the image (failure logs and *returns*) and run
the model (failure raises to the top-level handler).  The local `mkdir`
calls touch only the scratch directory and are effect-free here. -/
def afterDecode (env : Env) (img_name : String) (chat_id : JVal) (t : Trace) :
    BodyResult :=
  let t1 := { t with downloadAttempted := true }
  if !env.downloadOk then .done t1
  else if !env.predictOk then .raised .predictError t1
  else afterPredict env img_name chat_id t1

/-- The `try` body of `process_job` (lines 137–246) on the parse result of
`json.loads(message["Body"])`.  `none` models an unparseable body
(`json.loads` raises); a parseable non-object body makes `job.get` raise
`AttributeError`; a truthy non-string `imgName` makes
`local_img_dir / img_name` raise `TypeError` at line 153, before any
external call. -/
def runBody (env : Env) (body : Option JVal) : BodyResult :=
  match body with
  | none => .raised .jsonDecodeError {}
  | some (.jobj fields) =>
    let img_name := lookupField fields "imgName"
    let chat_id := lookupField fields "chat_id"
    if truthyOpt img_name && truthyOpt chat_id then
      let t1 : Trace := { decodedOk := true }
      match img_name with
      | some (.jstr img) => afterDecode env img (chat_id.getD .jnull) t1
      | _ => .raised .typeError t1
    else
      if env.deleteOk then .done { deleteCalled := true, deleted := true }
      else .raised .deleteError { deleteCalled := true }
  | some _ => .raised .attributeError {}

/-- The `except Exception` boundary at lines 248–250: a normal return
passes the trace through, a raised exception is logged and followed by a
one-second pause, and the function returns either way. -/
def resultTrace : BodyResult → Trace
  | .done t => t
  | .raised _ t => { t with caughtTop := true, handlerPaused := true }

/-- `process_job` (lines 134–250): the whole body runs inside
`try … except Exception`.  The function always returns; no exception
propagates to `consume`. -/
def process_job (env : Env) (body : Option JVal) : Trace :=
  resultTrace (runBody env body)

/-! ## Spec-side characterisations

The next definitions restate outcomes in the spec's vocabulary so that the
amended claims can be phrased against them and compared with the embedded
code above. -/

/-- The first non-`transient` outcome the retry loop would meet over the
given attempt indices (`none` when every attempt is transient). -/
def firstStop (mongo : ℕ → MongoOutcome) : List ℕ → Option MongoOutcome
  | [] => none
  | a :: rest =>
    match mongo a with
    | .transient => firstStop mongo rest
    | o => some o

/-- The persistence stage raises a non-transient error out of the retry
loop: among attempts `0..4` a non-transient exception occurs before any
successful insert. -/
def mongoFatal (mongo : ℕ → MongoOutcome) : Bool :=
  match firstStop mongo (List.range 5) with
  | some .other => true
  | _ => false

/-- Spec-side acknowledgment condition (the amended claim C2): the message
is deleted exactly when the delete call itself succeeds and either the body
parsed to an object that failed field validation, or decode, fetch,
inference and upload all succeeded, encoding raised nothing, and no
persistence attempt raised a non-transient error. -/
def ackPredicate (env : Env) (body : Option JVal) : Bool :=
  env.deleteOk &&
    match body with
    | some (.jobj fields) =>
      if truthyOpt (lookupField fields "imgName") && truthyOpt (lookupField fields "chat_id") then
        match lookupField fields "imgName" with
        | some (.jstr _) =>
          env.downloadOk && env.predictOk && env.uploadOk &&
            (encodeLabels env.names env.labelLines).isOk && !mongoFatal env.mongo
        | _ => false
      else true
    | _ => false

/-- Spec-side reading of one well-formed engine output line (claim C7's
words): the Class Name Table entry at the line's leading integer index,
and the next four fields parsed as numbers. -/
def specLine (names : List (Int × String)) (line : String) : Label :=
  { «class» := (dictLookup names ((pyInt ((pySplit line).headD "")).getD 0)).getD ""
    cx := (pyFloat (((pySplit line).get? 1).getD "")).getD 0
    cy := (pyFloat (((pySplit line).get? 2).getD "")).getD 0
    width := (pyFloat (((pySplit line).get? 3).getD "")).getD 0
    height := (pyFloat (((pySplit line).get? 4).getD "")).getD 0 }

/-- A non-empty engine output line is well formed when its leading field is
an integer with an entry in the Class Name Table and the next four fields
parse as numbers. -/
def wellFormedLine (names : List (Int × String)) (line : String) : Bool :=
  (match pyInt ((pySplit line).headD "") with
   | none => false
   | some idx => (dictLookup names idx).isSome)
  && (pyFloat (((pySplit line).get? 1).getD "")).isSome
  && (pyFloat (((pySplit line).get? 2).getD "")).isSome
  && (pyFloat (((pySplit line).get? 3).getD "")).isSome
  && (pyFloat (((pySplit line).get? 4).getD "")).isSome

/-! ## Concrete instances used by counterexamples and witnesses -/

/-- A fully healthy environment: every external call succeeds, the Class
Name Table maps 0 to "person" and 15 to "cat", and the engine wrote one
detection line. -/
def envA : Env :=
  { uuid := "uuid-a"
    names := [(0, "person"), (15, "cat")]
    downloadOk := true
    predictOk := true
    labelLines := some ["15 0.5 0.5 0.2 0.3"]
    uploadOk := true
    mongo := fun _ => .ok
    notify := .resp 200
    deleteOk := true
    now := 0 }

/-- A message body in the shape the code expects: `imgName` (camelCase). -/
def bodyValid : Option JVal :=
  some (.jobj [("imgName", .jstr "cat.jpg"), ("chat_id", .jstr "42")])

/-- A message body in the shape the spec documents: `img_name` (snake_case),
both fields present and non-empty strings. -/
def bodySnake : Option JVal :=
  some (.jobj [("img_name", .jstr "cat.jpg"), ("chat_id", .jstr "42")])

/-- Like `envA`, but the engine output contains a line whose class index
999 has no entry in the Class Name Table, followed by a valid line. -/
def envBad : Env :=
  { envA with labelLines := some ["999 0.5 0.5 0.2 0.3", "15 0.1 0.1 0.1 0.1"] }

/-! ## Helper lemmas about the persistence retry loop -/

lemma persistLoop_deleted (mongo : ℕ → MongoOutcome) (r : PredictionRecord) :
    ∀ (l : List ℕ) (t : Trace), (persistLoop mongo r l t).1.deleted = t.deleted := by
  intro l
  induction l with
  | nil => intro t; rfl
  | cons a rest ih =>
    intro t
    simp only [persistLoop]
    split
    · rfl
    · split <;> exact ih _
    · rfl

lemma persistLoop_caughtTop (mongo : ℕ → MongoOutcome) (r : PredictionRecord) :
    ∀ (l : List ℕ) (t : Trace), (persistLoop mongo r l t).1.caughtTop = t.caughtTop := by
  intro l
  induction l with
  | nil => intro t; rfl
  | cons a rest ih =>
    intro t
    simp only [persistLoop]
    split
    · rfl
    · split <;> exact ih _
    · rfl

lemma persistLoop_notifyAttempted (mongo : ℕ → MongoOutcome) (r : PredictionRecord) :
    ∀ (l : List ℕ) (t : Trace),
      (persistLoop mongo r l t).1.notifyAttempted = t.notifyAttempted := by
  intro l
  induction l with
  | nil => intro t; rfl
  | cons a rest ih =>
    intro t
    simp only [persistLoop]
    split
    · rfl
    · split <;> exact ih _
    · rfl

lemma persistLoop_notifyOk (mongo : ℕ → MongoOutcome) (r : PredictionRecord) :
    ∀ (l : List ℕ) (t : Trace), (persistLoop mongo r l t).1.notifyOk = t.notifyOk := by
  intro l
  induction l with
  | nil => intro t; rfl
  | cons a rest ih =>
    intro t
    simp only [persistLoop]
    split
    · rfl
    · split <;> exact ih _
    · rfl

lemma persistLoop_decodedOk (mongo : ℕ → MongoOutcome) (r : PredictionRecord) :
    ∀ (l : List ℕ) (t : Trace), (persistLoop mongo r l t).1.decodedOk = t.decodedOk := by
  intro l
  induction l with
  | nil => intro t; rfl
  | cons a rest ih =>
    intro t
    simp only [persistLoop]
    split
    · rfl
    · split <;> exact ih _
    · rfl

lemma persistLoop_attempts_le (mongo : ℕ → MongoOutcome) (r : PredictionRecord) :
    ∀ (l : List ℕ) (t : Trace),
      (persistLoop mongo r l t).1.mongoAttempts ≤ t.mongoAttempts + l.length := by
  intro l
  induction l with
  | nil => intro t; simp [persistLoop]
  | cons a rest ih =>
    intro t
    simp only [persistLoop]
    split
    · show t.mongoAttempts + 1 ≤ t.mongoAttempts + (rest.length + 1)
      omega
    · split
      all_goals
        refine le_trans (ih _) ?_
        show t.mongoAttempts + 1 + rest.length ≤ t.mongoAttempts + (rest.length + 1)
        omega
    · show t.mongoAttempts + 1 ≤ t.mongoAttempts + (rest.length + 1)
      omega

lemma persistLoop_inserted (mongo : ℕ → MongoOutcome) (r : PredictionRecord) :
    ∀ (l : List ℕ) (t : Trace),
      (persistLoop mongo r l t).1.inserted = t.inserted ∨
        (persistLoop mongo r l t).1.inserted = some r := by
  intro l
  induction l with
  | nil => intro t; left; rfl
  | cons a rest ih =>
    intro t
    simp only [persistLoop]
    split
    · right; rfl
    · split <;> exact ih _
    · left; rfl

lemma persistLoop_snd (mongo : ℕ → MongoOutcome) (r : PredictionRecord) :
    ∀ (l : List ℕ) (t : Trace),
      (persistLoop mongo r l t).2 =
        (match firstStop mongo l with
         | some .other => some PyErr.mongoError
         | _ => none) := by
  intro l
  induction l with
  | nil => intro t; rfl
  | cons a rest ih =>
    intro t
    simp only [persistLoop, firstStop]
    split <;> rename_i x heq <;> rw [heq]
    · split <;> exact ih _

lemma mongoFatal_false_of_persist_none (mongo : ℕ → MongoOutcome)
    (r : PredictionRecord) (t : Trace)
    (h : (persistLoop mongo r (List.range 5) t).2 = none) : mongoFatal mongo = false := by
  rw [persistLoop_snd] at h
  unfold mongoFatal
  rcases hfs : firstStop mongo (List.range 5) with _ | o
  · rfl
  · cases o <;> simp_all

lemma mongoFatal_true_of_persist_some (mongo : ℕ → MongoOutcome)
    (r : PredictionRecord) (t : Trace) (e : PyErr)
    (h : (persistLoop mongo r (List.range 5) t).2 = some e) : mongoFatal mongo = true := by
  rw [persistLoop_snd] at h
  unfold mongoFatal
  rcases hfs : firstStop mongo (List.range 5) with _ | o
  · simp_all
  · cases o <;> simp_all

/-! ## Helper lemmas about the encode stage -/

lemma pyFloat_empty : pyFloat "" = none := by decide

lemma encodeLine_empty (names : List (Int × String)) (line : String)
    (h : pyStrip line = "") : encodeLine names line = .ok none := by
  unfold encodeLine
  rw [if_pos h]

lemma encodeLine_wf (names : List (Int × String)) (line : String)
    (hne : ¬ pyStrip line = "")
    (hwf : wellFormedLine names line = true) :
    encodeLine names line = .ok (some (specLine names line)) := by
  unfold wellFormedLine at hwf
  rcases hint : pyInt ((pySplit line).headD "") with _ | idx
  · rw [hint] at hwf
    simp at hwf
  · rw [hint] at hwf
    simp only [Bool.and_eq_true, Option.isSome_iff_exists] at hwf
    obtain ⟨⟨⟨⟨⟨cls, hcls⟩, q1, h1⟩, q2, h2⟩, q3, h3⟩, q4, h4⟩ := hwf
    rcases hg1 : (pySplit line).get? 1 with _ | s1
    · rw [hg1] at h1; simp [pyFloat_empty] at h1
    rcases hg2 : (pySplit line).get? 2 with _ | s2
    · rw [hg2] at h2; simp [pyFloat_empty] at h2
    rcases hg3 : (pySplit line).get? 3 with _ | s3
    · rw [hg3] at h3; simp [pyFloat_empty] at h3
    rcases hg4 : (pySplit line).get? 4 with _ | s4
    · rw [hg4] at h4; simp [pyFloat_empty] at h4
    rw [hg1] at h1
    rw [hg2] at h2
    rw [hg3] at h3
    rw [hg4] at h4
    simp only [Option.getD_some] at h1 h2 h3 h4
    unfold encodeLine specLine
    rw [if_neg hne]
    simp only [hint, hcls, pyFloatAt, hg1, hg2, hg3, hg4, h1, h2, h3, h4,
      Option.getD_some, Except.bind]
    rfl

lemma encodeLoop_ok (names : List (Int × String)) :
    ∀ (lines : List String) (acc : List Label),
      (∀ line ∈ lines, ¬ pyStrip line = "" → wellFormedLine names line = true) →
      encodeLoop names lines acc =
        .ok (acc ++ (lines.filter (fun l => pyStrip l != "")).map (specLine names)) := by
  intro lines
  induction lines with
  | nil => intro acc h; simp [encodeLoop]
  | cons line rest ih =>
    intro acc h
    by_cases hs : pyStrip line = ""
    · rw [List.filter_cons_of_neg (by simp [hs])]
      simp only [encodeLoop, encodeLine_empty names line hs]
      exact ih acc (fun l hl => h l (List.mem_cons_of_mem _ hl))
    · rw [List.filter_cons_of_pos (by simp [hs])]
      simp only [encodeLoop,
        encodeLine_wf names line hs (h line (List.mem_cons_self _ _) hs)]
      rw [ih (acc ++ [specLine names line])
        (fun l hl => h l (List.mem_cons_of_mem _ hl))]
      simp

lemma encodeLoop_error (names : List (Int × String)) :
    ∀ (lines : List String) (acc : List Label) (line : String) (e : PyErr),
      line ∈ lines → encodeLine names line = .error e →
      ∃ e2, encodeLoop names lines acc = .error e2 := by
  intro lines
  induction lines with
  | nil => intro acc line e h; simp at h
  | cons first rest ih =>
    intro acc line e hmem herr
    rcases List.mem_cons.mp hmem with heq | htail
    · subst heq
      rcases hfst : encodeLine names line with e1 | v
      · exact ⟨e1, by simp [encodeLoop, hfst]⟩
      · rw [hfst] at herr; cases herr
    · rcases hfst : encodeLine names first with e1 | v
      · exact ⟨e1, by simp [encodeLoop, hfst]⟩
      · rcases v with _ | lab
        · simpa [encodeLoop, hfst] using ih acc line e htail herr
        · simpa [encodeLoop, hfst] using ih (acc ++ [lab]) line e htail herr

lemma persistLoop_all_transient (mongo : ℕ → MongoOutcome) (r : PredictionRecord)
    (t : Trace) (h : ∀ a < 5, mongo a = .transient) :
    persistLoop mongo r (List.range 5) t =
      ({ t with mongoAttempts := t.mongoAttempts + 5,
                sleeps := t.sleeps ++ [1, 2, 4, 8] }, none) := by
  have h0 := h 0 (by norm_num)
  have h1 := h 1 (by norm_num)
  have h2 := h 2 (by norm_num)
  have h3 := h 3 (by norm_num)
  have h4 := h 4 (by norm_num)
  have hr : List.range 5 = [0, 1, 2, 3, 4] := rfl
  rw [hr]
  simp only [persistLoop, h0, h1, h2, h3, h4]
  norm_num

/-! ## Facts about a completed run -/

lemma persistLoop_facts (mongo : ℕ → MongoOutcome) (r : PredictionRecord)
    (l : List ℕ) (t t2 : Trace) (e2 : Option PyErr)
    (h : persistLoop mongo r l t = (t2, e2)) :
    t2.deleted = t.deleted ∧ t2.caughtTop = t.caughtTop
    ∧ t2.notifyAttempted = t.notifyAttempted ∧ t2.decodedOk = t.decodedOk
    ∧ t2.mongoAttempts ≤ t.mongoAttempts + l.length
    ∧ (t2.inserted = t.inserted ∨ t2.inserted = some r) := by
  refine ⟨?_, ?_, ?_, ?_, ?_, ?_⟩
  · have hx := persistLoop_deleted mongo r l t; rw [h] at hx; exact hx
  · have hx := persistLoop_caughtTop mongo r l t; rw [h] at hx; exact hx
  · have hx := persistLoop_notifyAttempted mongo r l t; rw [h] at hx; exact hx
  · have hx := persistLoop_decodedOk mongo r l t; rw [h] at hx; exact hx
  · have hx := persistLoop_attempts_le mongo r l t; rw [h] at hx; exact hx
  · have hx := persistLoop_inserted mongo r l t; rw [h] at hx; exact hx

/-- What the pipeline tail (persist, notify, delete) does to a trace that
reaches it untouched. -/
lemma persistAndFinish_facts (env : Env) (rec : PredictionRecord) (t : Trace)
    (hrec : rec.«_id» = env.uuid)
    (hdel : t.deleted = false) (hct : t.caughtTop = false)
    (hna : t.notifyAttempted = false) (hdo : t.decodedOk = true)
    (hma : t.mongoAttempts = 0) (hins : t.inserted = none) :
    (resultTrace (persistAndFinish env rec t)).mongoAttempts ≤ 5
    ∧ (resultTrace (persistAndFinish env rec t)).deleted
        = (env.deleteOk && !mongoFatal env.mongo)
    ∧ ((resultTrace (persistAndFinish env rec t)).caughtTop = true →
        (resultTrace (persistAndFinish env rec t)).deleted = false
        ∧ (resultTrace (persistAndFinish env rec t)).handlerPaused = true)
    ∧ (∀ r2, (resultTrace (persistAndFinish env rec t)).inserted = some r2 →
        r2.«_id» = env.uuid)
    ∧ ((resultTrace (persistAndFinish env rec t)).notifyAttempted = true →
        (resultTrace (persistAndFinish env rec t)).notifiedId = some env.uuid
        ∧ (resultTrace (persistAndFinish env rec t)).notifyTimeout = 10)
    ∧ (resultTrace (persistAndFinish env rec t)).decodedOk = true := by
  unfold persistAndFinish
  rcases hp : persistLoop env.mongo rec (List.range 5) t with ⟨t3, oe⟩
  obtain ⟨f1, f2, f3, f4, f5, f6⟩ := persistLoop_facts env.mongo rec (List.range 5) t t3 oe hp
  rw [hma, List.length_range, Nat.zero_add] at f5
  cases oe with
  | some e =>
    have hfat := mongoFatal_true_of_persist_some env.mongo rec t e (by rw [hp])
    simp only [resultTrace]
    refine ⟨f5, ?_, ?_, ?_, ?_, ?_⟩
    · rw [f1, hdel, hfat]
      simp
    · intro hx
      exact ⟨by rw [f1, hdel], by trivial⟩
    · intro r2 hx
      rcases f6 with h6 | h6
      · rw [hins] at h6; rw [h6] at hx; cases hx
      · rw [h6] at hx
        injection hx with h7
        rw [← h7]
        exact hrec
    · intro hx
      rw [f3, hna] at hx
      cases hx
    · rw [f4, hdo]
  | none =>
    have hfat := mongoFatal_false_of_persist_none env.mongo rec t (by rw [hp])
    cases hdok : env.deleteOk with
    | true =>
      simp only [afterPersist]
      rw [hdok, if_pos rfl]
      simp only [resultTrace]
      refine ⟨f5, ?_, ?_, ?_, ?_, ?_⟩
      · rw [hfat]
        rfl
      · intro hx
        rw [f2, hct] at hx
        cases hx
      · intro r2 hx
        rcases f6 with h6 | h6
        · rw [hins] at h6; rw [h6] at hx; cases hx
        · rw [h6] at hx
          injection hx with h7
          rw [← h7]
          exact hrec
      · intro hx
        exact ⟨by trivial, by trivial⟩
      · rw [f4, hdo]
    | false =>
      simp only [afterPersist]
      rw [hdok, if_neg Bool.false_ne_true]
      simp only [resultTrace]
      refine ⟨f5, ?_, ?_, ?_, ?_, ?_⟩
      · rw [f1, hdel]
        simp
      · intro hx
        exact ⟨by rw [f1, hdel], by trivial⟩
      · intro r2 hx
        rcases f6 with h6 | h6
        · rw [hins] at h6; rw [h6] at hx; cases hx
        · rw [h6] at hx
          injection hx with h7
          rw [← h7]
          exact hrec
      · intro hx
        exact ⟨by trivial, by trivial⟩
      · rw [f4, hdo]

lemma except_isOk_ok {ε α : Type} (a : α) : (Except.ok a : Except ε α).isOk = true := rfl

lemma except_isOk_error {ε α : Type} (e : ε) : (Except.error e : Except ε α).isOk = false := rfl

/-- All branch-independent facts about one `process_job` run, established by
walking every branch of the pipeline once: the attempt bound, the exact
acknowledgment condition, the catch-implies-no-ack property, the origin of
any inserted document id, the notification payload, and the decode flag. -/
lemma run_facts (env : Env) (body : Option JVal) :
    (process_job env body).mongoAttempts ≤ 5
    ∧ (process_job env body).deleted = ackPredicate env body
    ∧ ((process_job env body).caughtTop = true →
        (process_job env body).deleted = false ∧ (process_job env body).handlerPaused = true)
    ∧ (∀ r, (process_job env body).inserted = some r → r.«_id» = env.uuid)
    ∧ ((process_job env body).notifyAttempted = true →
        (process_job env body).notifiedId = some env.uuid
        ∧ (process_job env body).notifyTimeout = 10)
    ∧ (∀ fields, body = some (.jobj fields) →
        (process_job env body).decodedOk =
          (truthyOpt (lookupField fields "imgName")
            && truthyOpt (lookupField fields "chat_id")))
    ∧ (∀ fields, body = some (.jobj fields) →
        (truthyOpt (lookupField fields "imgName")
          && truthyOpt (lookupField fields "chat_id")) = false →
        (process_job env body).deleteCalled = true
        ∧ (process_job env body).deleted = env.deleteOk
        ∧ (process_job env body).downloadAttempted = false
        ∧ (process_job env body).uploadAttempted = false
        ∧ (process_job env body).mongoAttempts = 0
        ∧ (process_job env body).inserted = none
        ∧ (process_job env body).notifyAttempted = false) := by
  cases body with
  | none => simp [process_job, runBody, resultTrace, ackPredicate]
  | some j =>
    cases j with
    | jnull => simp [process_job, runBody, resultTrace, ackPredicate]
    | jbool b => simp [process_job, runBody, resultTrace, ackPredicate]
    | jnum q => simp [process_job, runBody, resultTrace, ackPredicate]
    | jstr s => simp [process_job, runBody, resultTrace, ackPredicate]
    | jarr elems => simp [process_job, runBody, resultTrace, ackPredicate]
    | jobj fields =>
      cases hti : truthyOpt (lookupField fields "imgName") with
      | false =>
        simp only [process_job, runBody, ackPredicate]
        rw [hti]
        cases hdel : env.deleteOk <;> simp [resultTrace, hdel, hti]
      | true =>
        cases htc : truthyOpt (lookupField fields "chat_id") with
        | false =>
          simp only [process_job, runBody, ackPredicate]
          rw [hti, htc]
          cases hdel : env.deleteOk <;> simp [resultTrace, hdel, hti, htc]
        | true =>
          rcases himg : lookupField fields "imgName" with _ | v
          · rw [himg] at hti
            simp [truthyOpt] at hti
          · cases v with
            | jnull =>
              rw [himg] at hti
              simp [truthyOpt, truthy] at hti
            | jbool b =>
              simp only [process_job, runBody, ackPredicate]
              rw [hti, htc, himg]
              simp [resultTrace, hti, htc]
            | jnum q =>
              simp only [process_job, runBody, ackPredicate]
              rw [hti, htc, himg]
              simp [resultTrace, hti, htc]
            | jarr elems =>
              simp only [process_job, runBody, ackPredicate]
              rw [hti, htc, himg]
              simp [resultTrace, hti, htc]
            | jobj fs2 =>
              simp only [process_job, runBody, ackPredicate]
              rw [hti, htc, himg]
              simp [resultTrace, hti, htc]
            | jstr s =>
              cases hdl : env.downloadOk with
              | false =>
                simp only [process_job, runBody, ackPredicate]
                rw [hti, htc, himg]
                simp [resultTrace, afterDecode, hdl, hti, htc]
              | true =>
                cases hpr : env.predictOk with
                | false =>
                  simp only [process_job, runBody, ackPredicate]
                  rw [hti, htc, himg]
                  simp [resultTrace, afterDecode, hdl, hpr, hti, htc]
                | true =>
                  cases hup : env.uploadOk with
                  | false =>
                    simp only [process_job, runBody, ackPredicate]
                    rw [hti, htc, himg]
                    simp [resultTrace, afterDecode, afterPredict, hdl, hpr, hup, hti, htc]
                  | true =>
                    rcases henc : encodeLabels env.names env.labelLines with e | labels
                    · simp only [process_job, runBody, ackPredicate]
                      rw [hti, htc, himg]
                      simp [resultTrace, afterDecode, afterPredict, hdl, hpr, hup, henc,
                        except_isOk_error, hti, htc]
                    · have hrun : runBody env (some (.jobj fields)) =
                          persistAndFinish env
                            { «_id» := env.uuid
                              chat_id := (lookupField fields "chat_id").getD .jnull
                              original_img_path := s
                              predicted_img_path := "predictions/" ++ env.uuid ++ "/" ++ s
                              labels := labels
                              time := env.now }
                            { decodedOk := true, downloadAttempted := true,
                              uploadAttempted := true } := by
                        simp only [runBody]
                        rw [hti, htc, himg]
                        simp [afterDecode, afterPredict, hdl, hpr, hup, henc]
                      obtain ⟨g1, g2, g3, g4, g5, g6⟩ :=
                        persistAndFinish_facts env
                          { «_id» := env.uuid
                            chat_id := (lookupField fields "chat_id").getD .jnull
                            original_img_path := s
                            predicted_img_path := "predictions/" ++ env.uuid ++ "/" ++ s
                            labels := labels
                            time := env.now }
                          { decodedOk := true, downloadAttempted := true,
                            uploadAttempted := true }
                          rfl rfl rfl rfl rfl rfl rfl
                      simp only [process_job, hrun]
                      refine ⟨g1, ?_, g3, g4, g5, ?_, ?_⟩
                      · rw [g2]
                        simp only [ackPredicate]
                        rw [hti, htc, himg]
                        simp [hdl, hpr, hup, henc, except_isOk_ok]
                      · intro fields2 hf
                        injection hf with hf2
                        injection hf2 with hf3
                        subst hf3
                        rw [g6, hti, htc]
                        rfl
                      · intro fields2 hf hcontra
                        injection hf with hf2
                        injection hf2 with hf3
                        subst hf3
                        rw [hti, htc] at hcontra
                        cases hcontra

/-- The notification outcome changes nothing in the pipeline tail except the
logged success flag. -/
lemma persistAndFinish_notify (env : Env) (n : NotifyOutcome)
    (rec : PredictionRecord) (t : Trace)
    (hna : t.notifyAttempted = false) (hnok : t.notifyOk = false) :
    resultTrace (persistAndFinish { env with notify := n } rec t)
      = { resultTrace (persistAndFinish env rec t) with
          notifyOk := (resultTrace (persistAndFinish env rec t)).notifyAttempted
            && notifyOkOf n } := by
  unfold persistAndFinish
  have hm : ({ env with notify := n } : Env).mongo = env.mongo := rfl
  rw [hm]
  rcases hp : persistLoop env.mongo rec (List.range 5) t with ⟨t3, oe⟩
  have hna3 : t3.notifyAttempted = false := by
    have hx := persistLoop_notifyAttempted env.mongo rec (List.range 5) t
    rw [hp] at hx
    rw [hx, hna]
  have hnok3 : t3.notifyOk = false := by
    have hx := persistLoop_notifyOk env.mongo rec (List.range 5) t
    rw [hp] at hx
    rw [hx, hnok]
  cases oe with
  | some e =>
    simp only [resultTrace]
    rw [hna3, hnok3]
    rfl
  | none =>
    simp only [afterPersist, resultTrace]
    cases hdok : env.deleteOk <;> simp [hdok]

/-- The notification outcome changes nothing observable about a run except
the logged success flag: same acknowledgment, same side effects, no
exception escapes the stage. -/
lemma process_job_notify (env : Env) (n : NotifyOutcome) (body : Option JVal) :
    process_job { env with notify := n } body
      = { process_job env body with
          notifyOk := (process_job env body).notifyAttempted && notifyOkOf n } := by
  obtain ⟨uuid, names, dOk, pOk, lab, upOk, mongo, notif, delOk, now⟩ := env
  cases body with
  | none => simp [process_job, runBody, resultTrace]
  | some j =>
    cases j with
    | jnull => simp [process_job, runBody, resultTrace]
    | jbool b => simp [process_job, runBody, resultTrace]
    | jnum q => simp [process_job, runBody, resultTrace]
    | jstr s => simp [process_job, runBody, resultTrace]
    | jarr elems => simp [process_job, runBody, resultTrace]
    | jobj fields =>
      cases hti : truthyOpt (lookupField fields "imgName") with
      | false =>
        simp only [process_job, runBody]
        rw [hti]
        cases delOk <;> simp [resultTrace]
      | true =>
        cases htc : truthyOpt (lookupField fields "chat_id") with
        | false =>
          simp only [process_job, runBody]
          rw [hti, htc]
          cases delOk <;> simp [resultTrace]
        | true =>
          rcases himg : lookupField fields "imgName" with _ | v
          · rw [himg] at hti
            simp [truthyOpt] at hti
          · cases v with
            | jnull =>
              rw [himg] at hti
              simp [truthyOpt, truthy] at hti
            | jbool b =>
              simp only [process_job, runBody]
              rw [hti, htc, himg]
              simp [resultTrace]
            | jnum q =>
              simp only [process_job, runBody]
              rw [hti, htc, himg]
              simp [resultTrace]
            | jarr elems =>
              simp only [process_job, runBody]
              rw [hti, htc, himg]
              simp [resultTrace]
            | jobj fs2 =>
              simp only [process_job, runBody]
              rw [hti, htc, himg]
              simp [resultTrace]
            | jstr s =>
              cases dOk with
              | false =>
                simp only [process_job, runBody]
                rw [hti, htc, himg]
                simp [resultTrace, afterDecode]
              | true =>
                cases pOk with
                | false =>
                  simp only [process_job, runBody]
                  rw [hti, htc, himg]
                  simp [resultTrace, afterDecode]
                | true =>
                  cases upOk with
                  | false =>
                    simp only [process_job, runBody]
                    rw [hti, htc, himg]
                    simp [resultTrace, afterDecode, afterPredict]
                  | true =>
                    rcases henc : encodeLabels names lab with e | labels
                    · simp only [process_job, runBody]
                      rw [hti, htc, himg]
                      simp [resultTrace, afterDecode, afterPredict, henc]
                    · have hrun : ∀ nt : NotifyOutcome,
                          runBody
                            { uuid := uuid, names := names, downloadOk := true,
                              predictOk := true, labelLines := lab, uploadOk := true,
                              mongo := mongo, notify := nt, deleteOk := delOk, now := now }
                            (some (.jobj fields)) =
                          persistAndFinish
                            { uuid := uuid, names := names, downloadOk := true,
                              predictOk := true, labelLines := lab, uploadOk := true,
                              mongo := mongo, notify := nt, deleteOk := delOk, now := now }
                            { «_id» := uuid
                              chat_id := (lookupField fields "chat_id").getD .jnull
                              original_img_path := s
                              predicted_img_path := "predictions/" ++ uuid ++ "/" ++ s
                              labels := labels
                              time := now }
                            { decodedOk := true, downloadAttempted := true,
                              uploadAttempted := true } := by
                        intro nt
                        simp only [runBody]
                        rw [hti, htc, himg]
                        simp [afterDecode, afterPredict, henc]
                      simp only [process_job]
                      rw [hrun n, hrun notif]
                      exact persistAndFinish_notify
                        { uuid := uuid, names := names, downloadOk := true,
                          predictOk := true, labelLines := lab, uploadOk := true,
                          mongo := mongo, notify := notif, deleteOk := delOk, now := now }
                        n
                        { «_id» := uuid
                          chat_id := (lookupField fields "chat_id").getD .jnull
                          original_img_path := s
                          predicted_img_path := "predictions/" ++ uuid ++ "/" ++ s
                          labels := labels
                          time := now }
                        { decodedOk := true, downloadAttempted := true,
                          uploadAttempted := true }
                        rfl rfl

/-- A run whose decode, fetch, inference, upload and encode stages all
succeed reduces to the pipeline tail on the built `prediction_summary`. -/
lemma runBody_reachPersist (env : Env) (fields : List (String × JVal))
    (s : String) (labels : List Label)
    (hti : truthyOpt (lookupField fields "imgName") = true)
    (htc : truthyOpt (lookupField fields "chat_id") = true)
    (himg : lookupField fields "imgName" = some (.jstr s))
    (hdl : env.downloadOk = true) (hpr : env.predictOk = true)
    (hup : env.uploadOk = true)
    (henc : encodeLabels env.names env.labelLines = .ok labels) :
    runBody env (some (.jobj fields)) =
      persistAndFinish env
        { «_id» := env.uuid
          chat_id := (lookupField fields "chat_id").getD .jnull
          original_img_path := s
          predicted_img_path := "predictions/" ++ env.uuid ++ "/" ++ s
          labels := labels
          time := env.now }
        { decodedOk := true, downloadAttempted := true, uploadAttempted := true } := by
  simp only [runBody]
  rw [hti, htc, himg]
  simp [afterDecode, afterPredict, hdl, hpr, hup, henc]

/-- A line whose leading field parses to an index missing from the Class
Name Table makes the whole encode stage raise. -/
lemma encodeLabels_error_of_line (names : List (Int × String))
    (lines : List String) (line : String) (idx : Int)
    (hmem : line ∈ lines) (hne : ¬ pyStrip line = "")
    (hidx : pyInt ((pySplit line).headD "") = some idx)
    (hlook : dictLookup names idx = none) :
    ∃ e, encodeLabels names (some lines) = .error e := by
  have hline : encodeLine names line = .error .keyError := by
    unfold encodeLine
    rw [if_neg hne, hidx]
    simp only [hlook]
  obtain ⟨e2, he⟩ := encodeLoop_error names lines [] line .keyError hmem hline
  exact ⟨e2, by simpa [encodeLabels] using he⟩

/-! ## Claim theorems -/

/-- C1 (amended): for a message whose body is a JSON object, the pipeline
proceeds past decode iff the body's `imgName` (camelCase, not the spec's
`img_name`) and `chat_id` fields are both present and truthy (for string
values: non-empty); when the check fails, a queue delete is issued (the
message is acknowledged whenever that delete succeeds) and the run performs
no blob-store, document-store, or notification side effects. -/
theorem c1_decode_gate (env : Env) (fields : List (String × JVal)) :
    (process_job env (some (.jobj fields))).decodedOk
      = (truthyOpt (lookupField fields "imgName")
          && truthyOpt (lookupField fields "chat_id"))
    ∧ ((truthyOpt (lookupField fields "imgName")
          && truthyOpt (lookupField fields "chat_id")) = false →
        (process_job env (some (.jobj fields))).deleteCalled = true
        ∧ (process_job env (some (.jobj fields))).deleted = env.deleteOk
        ∧ (process_job env (some (.jobj fields))).downloadAttempted = false
        ∧ (process_job env (some (.jobj fields))).uploadAttempted = false
        ∧ (process_job env (some (.jobj fields))).mongoAttempts = 0
        ∧ (process_job env (some (.jobj fields))).inserted = none
        ∧ (process_job env (some (.jobj fields))).notifyAttempted = false) :=
  ⟨(run_facts env (some (.jobj fields))).2.2.2.2.2.1 fields rfl,
   fun h => (run_facts env (some (.jobj fields))).2.2.2.2.2.2 fields rfl h⟩

/-- C1 counterexample: a body carrying `img_name` and `chat_id` as
non-empty strings — exactly what the claim demands — does *not* proceed
past decode: the code reads `imgName`, finds nothing, acknowledges the
message and stops. -/
theorem c1_counterexample :
    (process_job envA bodySnake).decodedOk = false
    ∧ (process_job envA bodySnake).deleted = true
    ∧ (process_job envA bodySnake).downloadAttempted = false
    ∧ (process_job envA bodySnake).uploadAttempted = false
    ∧ (process_job envA bodySnake).notifyAttempted = false := by decide

/-- C1 witness: a body missing `chat_id` is dropped with a successful
delete and no download. -/
theorem c1_witness :
    (process_job envA (some (.jobj [("imgName", .jstr "x")]))).deleteCalled = true
    ∧ (process_job envA (some (.jobj [("imgName", .jstr "x")]))).deleted = true
    ∧ (process_job envA (some (.jobj [("imgName", .jstr "x")]))).downloadAttempted = false := by
  have h := (c1_decode_gate envA [("imgName", .jstr "x")]).2 (by decide)
  exact ⟨h.1, h.2.1, h.2.2.1⟩

/-- C2 (amended): the message is acknowledged exactly when the delete call
succeeds and either the body parsed to an object failing field validation
(so validation failure also acknowledges), or decode, fetch, inference and
upload all succeeded, encoding raised nothing, and no persistence attempt
raised a non-transient error; hence upload, encoding and non-transient
persistence failures all prevent acknowledgment, while the notification
outcome never affects it. -/
theorem c2_ack_characterization (env : Env) (body : Option JVal) :
    (process_job env body).deleted = ackPredicate env body
    ∧ ∀ nt : NotifyOutcome,
        (process_job { env with notify := nt } body).deleted
          = (process_job env body).deleted := by
  refine ⟨(run_facts env body).2.1, fun nt => ?_⟩
  rw [process_job_notify]

/-- C2 counterexample: with decode, fetch and inference all succeeding, an
upload failure alone prevents acknowledgment (the claim says upload cannot
affect it), and a validation failure is acknowledged (the claim says
acknowledgment requires decode to succeed). -/
theorem c2_counterexample :
    (process_job { envA with uploadOk := false } bodyValid).deleted = false
    ∧ (process_job envA (some (.jobj [("imgName", .jstr "x")]))).deleted = true := by
  decide

/-- C3 (amended): when the upload of the predicted image fails, the failure
is logged and the pipeline *returns immediately*: the persistence,
notification and acknowledgment stages are all skipped, leaving the message
unacknowledged for redelivery. -/
theorem c3_upload_aborts_run (env : Env) (fields : List (String × JVal)) (s : String)
    (hti : truthyOpt (lookupField fields "imgName") = true)
    (htc : truthyOpt (lookupField fields "chat_id") = true)
    (himg : lookupField fields "imgName" = some (.jstr s))
    (hdl : env.downloadOk = true) (hpr : env.predictOk = true)
    (hup : env.uploadOk = false) :
    (process_job env (some (.jobj fields))).uploadAttempted = true
    ∧ (process_job env (some (.jobj fields))).mongoAttempts = 0
    ∧ (process_job env (some (.jobj fields))).inserted = none
    ∧ (process_job env (some (.jobj fields))).notifyAttempted = false
    ∧ (process_job env (some (.jobj fields))).deleteCalled = false
    ∧ (process_job env (some (.jobj fields))).deleted = false
    ∧ (process_job env (some (.jobj fields))).caughtTop = false := by
  simp only [process_job, runBody]
  rw [hti, htc, himg]
  simp [resultTrace, afterDecode, afterPredict, hdl, hpr, hup]

/-- C3 counterexample: an upload failure stops the run before persistence,
notification and acknowledgment, contradicting the claim that the pipeline
"nevertheless continues" to those stages. -/
theorem c3_counterexample :
    (process_job { envA with uploadOk := false } bodyValid).uploadAttempted = true
    ∧ (process_job { envA with uploadOk := false } bodyValid).mongoAttempts = 0
    ∧ (process_job { envA with uploadOk := false } bodyValid).notifyAttempted = false
    ∧ (process_job { envA with uploadOk := false } bodyValid).deleteCalled = false
    ∧ (process_job { envA with uploadOk := false } bodyValid).deleted = false := by
  decide

/-- C3 witness: the amended statement applied to a concrete failing upload. -/
theorem c3_witness :
    (process_job { envA with uploadOk := false } bodyValid).mongoAttempts = 0
    ∧ (process_job { envA with uploadOk := false } bodyValid).notifyAttempted = false
    ∧ (process_job { envA with uploadOk := false } bodyValid).deleted = false := by
  have h := c3_upload_aborts_run { envA with uploadOk := false }
    [("imgName", .jstr "cat.jpg"), ("chat_id", .jstr "42")] "cat.jpg"
    (by decide) (by decide) rfl rfl rfl rfl
  exact ⟨h.2.1, h.2.2.2.1, h.2.2.2.2.2.1⟩

/-- C4 (amended): a message whose body is not parseable JSON raises during
decode; the exception is caught by the job's top-level handler, which logs
and pauses one second; the message is *not* deleted — it will be
redelivered, so an unparseable poison message does loop.  (Only a
parseable JSON object failing field validation is acknowledged-and-
dropped.)  No side effects occur. -/
theorem c4_unparseable_not_acked (env : Env) :
    (process_job env none).caughtTop = true
    ∧ (process_job env none).handlerPaused = true
    ∧ (process_job env none).deleted = false
    ∧ (process_job env none).deleteCalled = false
    ∧ (process_job env none).downloadAttempted = false
    ∧ (process_job env none).uploadAttempted = false
    ∧ (process_job env none).mongoAttempts = 0
    ∧ (process_job env none).inserted = none
    ∧ (process_job env none).notifyAttempted = false :=
  ⟨rfl, rfl, rfl, rfl, rfl, rfl, rfl, rfl, rfl⟩

/-- C4 counterexample: an unparseable body is *not* acknowledged — no
delete is even attempted — contradicting the claim that it is deleted
immediately and never retried. -/
theorem c4_counterexample :
    (process_job envA none).deleted = false
    ∧ (process_job envA none).deleteCalled = false := by decide

/-- C5: on transient-topology persistence failures the insert is attempted
exactly `max_retries = 5` times (and never more than 5 on any run), with
strictly increasing backoff sleeps of `2 ^ attempt` seconds between
attempts; after the fifth failure the pipeline still notifies and
acknowledges the message instead of crashing. -/
theorem c5_persistence_retry (env : Env) (fields : List (String × JVal))
    (s : String) (labels : List Label)
    (hti : truthyOpt (lookupField fields "imgName") = true)
    (htc : truthyOpt (lookupField fields "chat_id") = true)
    (himg : lookupField fields "imgName" = some (.jstr s))
    (hdl : env.downloadOk = true) (hpr : env.predictOk = true)
    (hup : env.uploadOk = true)
    (henc : encodeLabels env.names env.labelLines = .ok labels)
    (hmt : ∀ a < 5, env.mongo a = .transient)
    (hdok : env.deleteOk = true) :
    (process_job env (some (.jobj fields))).mongoAttempts = 5
    ∧ (process_job env (some (.jobj fields))).sleeps = [2 ^ 0, 2 ^ 1, 2 ^ 2, 2 ^ 3]
    ∧ List.Chain' (· < ·) (process_job env (some (.jobj fields))).sleeps
    ∧ (process_job env (some (.jobj fields))).inserted = none
    ∧ (process_job env (some (.jobj fields))).notifyAttempted = true
    ∧ (process_job env (some (.jobj fields))).deleted = true
    ∧ (process_job env (some (.jobj fields))).caughtTop = false
    ∧ ∀ (env2 : Env) (body2 : Option JVal),
        (process_job env2 body2).mongoAttempts ≤ 5 := by
  have hrun := runBody_reachPersist env fields s labels hti htc himg hdl hpr hup henc
  simp only [process_job, hrun, persistAndFinish]
  rw [persistLoop_all_transient env.mongo _ _ hmt]
  simp [afterPersist, resultTrace, hdok]
  exact fun env2 body2 => (run_facts env2 body2).1

/-- C5 witness: a concrete run in which every insert attempt raises a
transient error still acknowledges after 5 attempts and backoffs 1,2,4,8. -/
theorem c5_witness :
    (process_job { envA with labelLines := some [], mongo := fun _ => .transient }
        bodyValid).mongoAttempts = 5
    ∧ (process_job { envA with labelLines := some [], mongo := fun _ => .transient }
        bodyValid).sleeps = [2 ^ 0, 2 ^ 1, 2 ^ 2, 2 ^ 3]
    ∧ (process_job { envA with labelLines := some [], mongo := fun _ => .transient }
        bodyValid).deleted = true := by
  have h := c5_persistence_retry
    { envA with labelLines := some [], mongo := fun _ => .transient }
    [("imgName", .jstr "cat.jpg"), ("chat_id", .jstr "42")] "cat.jpg" []
    (by decide) (by decide) rfl rfl rfl rfl rfl (by decide) rfl
  exact ⟨h.1, h.2.1, h.2.2.2.2.2.1⟩

/-- C6 (amended): a non-empty engine output line whose leading class index
has no entry in the Class Name Table is *not* skipped: the lookup raises an
uncaught error, the whole job is aborted by the top-level handler (logged,
one-second pause), nothing is persisted or notified, and the message is
left unacknowledged for redelivery.  Only whitespace-only lines are
skipped. -/
theorem c6_bad_index_aborts_job (env : Env) (fields : List (String × JVal))
    (s : String) (lines : List String) (line : String) (idx : Int)
    (hti : truthyOpt (lookupField fields "imgName") = true)
    (htc : truthyOpt (lookupField fields "chat_id") = true)
    (himg : lookupField fields "imgName" = some (.jstr s))
    (hdl : env.downloadOk = true) (hpr : env.predictOk = true)
    (hup : env.uploadOk = true)
    (hlab : env.labelLines = some lines)
    (hmem : line ∈ lines) (hne : ¬ pyStrip line = "")
    (hidx : pyInt ((pySplit line).headD "") = some idx)
    (hlook : dictLookup env.names idx = none) :
    (process_job env (some (.jobj fields))).caughtTop = true
    ∧ (process_job env (some (.jobj fields))).handlerPaused = true
    ∧ (process_job env (some (.jobj fields))).deleted = false
    ∧ (process_job env (some (.jobj fields))).inserted = none
    ∧ (process_job env (some (.jobj fields))).mongoAttempts = 0
    ∧ (process_job env (some (.jobj fields))).notifyAttempted = false := by
  obtain ⟨e, he⟩ := encodeLabels_error_of_line env.names lines line idx hmem hne hidx hlook
  have henc : encodeLabels env.names env.labelLines = .error e := by rw [hlab]; exact he
  simp only [process_job, runBody]
  rw [hti, htc, himg]
  simp [resultTrace, afterDecode, afterPredict, hdl, hpr, hup, henc]

/-- C6 counterexample: with an out-of-range index on the first line and a
valid second line, the job is aborted — nothing is encoded, persisted or
acknowledged — contradicting the claim that the offending line is skipped
and the rest still encoded. -/
theorem c6_counterexample :
    (process_job envBad bodyValid).caughtTop = true
    ∧ (process_job envBad bodyValid).inserted = none
    ∧ (process_job envBad bodyValid).mongoAttempts = 0
    ∧ (process_job envBad bodyValid).deleted = false :=
  ⟨rfl, rfl, rfl, rfl⟩

/-- C6 witness: the amended statement applied to the concrete corrupt
output file. -/
theorem c6_witness :
    (process_job envBad bodyValid).caughtTop = true
    ∧ (process_job envBad bodyValid).notifyAttempted = false := by
  have h := c6_bad_index_aborts_job envBad
    [("imgName", .jstr "cat.jpg"), ("chat_id", .jstr "42")] "cat.jpg"
    ["999 0.5 0.5 0.2 0.3", "15 0.1 0.1 0.1 0.1"] "999 0.5 0.5 0.2 0.3" 999
    (by decide) (by decide) rfl rfl rfl rfl rfl (by decide) (by decide)
    (by decide) (by decide)
  exact ⟨h.1, h.2.2.2.2.2⟩

/-- C7: when every non-empty line of the engine output is a valid in-range
integer class index followed by four numeric fields, the encoded label
sequence is exactly the in-order image of the non-empty lines under the
spec's per-line reading (class from the Class Name Table at the leading
index, cx/cy/width/height parsed from the next four fields), so its length
equals the number of non-empty lines; a missing output file yields the
empty label sequence rather than an error. -/
theorem c7_encode_wellformed (names : List (Int × String)) (lines : List String)
    (h : ∀ line ∈ lines, ¬ pyStrip line = "" → wellFormedLine names line = true) :
    encodeLabels names (some lines)
      = .ok ((lines.filter (fun l => pyStrip l != "")).map (specLine names))
    ∧ (∀ labels, encodeLabels names (some lines) = .ok labels →
        labels.length = (lines.filter (fun l => pyStrip l != "")).length)
    ∧ encodeLabels names none = .ok [] := by
  have h1 := encodeLoop_ok names lines [] h
  have h2 : encodeLabels names (some lines)
      = .ok ((lines.filter (fun l => pyStrip l != "")).map (specLine names)) := by
    simpa [encodeLabels] using h1
  refine ⟨h2, ?_, rfl⟩
  intro labels hl
  rw [h2] at hl
  injection hl with h3
  rw [← h3, List.length_map]

/-- C7 witness: the end-to-end scenario line `15 0.5 0.5 0.2 0.3` with
index 15 mapping to "cat". -/
theorem c7_witness :
    encodeLabels [(15, "cat")] (some ["15 0.5 0.5 0.2 0.3"])
      = .ok ((["15 0.5 0.5 0.2 0.3"].filter (fun l => pyStrip l != "")).map
          (specLine [(15, "cat")])) :=
  (c7_encode_wellformed [(15, "cat")] ["15 0.5 0.5 0.2 0.3"] (by decide)).1

/-- C8: every run that reaches the notification stage POSTs exactly the
prediction id with a 10-second timeout, and the notification outcome —
any response status or a transport exception — changes nothing in the run
except the logged success flag: it never raises to the pipeline and never
prevents the subsequent acknowledgment. -/
theorem c8_notify_contract (env : Env) (body : Option JVal) (nt : NotifyOutcome) :
    ((process_job env body).notifyAttempted = true →
      (process_job env body).notifiedId = some env.uuid
      ∧ (process_job env body).notifyTimeout = 10)
    ∧ process_job { env with notify := nt } body
        = { process_job env body with
            notifyOk := (process_job env body).notifyAttempted && notifyOkOf nt } :=
  ⟨(run_facts env body).2.2.2.2.1, process_job_notify env nt body⟩

/-- C8 witness: the healthy run notifies with the generated id and the
fixed 10-second timeout. -/
theorem c8_witness :
    (process_job envA bodyValid).notifiedId = some envA.uuid
    ∧ (process_job envA bodyValid).notifyTimeout = 10 :=
  (c8_notify_contract envA bodyValid .exn).1 (by decide)

/-- C9: an inserted PredictionRecord's `_id` always equals the
environment-supplied fresh uuid of that attempt — it is not derived from
the message — so processing the same body under two attempts whose
generated uuids differ yields records with two different identifiers. -/
theorem c9_fresh_id_per_attempt :
    (∀ (env : Env) (body : Option JVal) (r : PredictionRecord),
        (process_job env body).inserted = some r → r.«_id» = env.uuid)
    ∧ ∀ (env1 env2 : Env) (body : Option JVal) (r1 r2 : PredictionRecord),
        (process_job env1 body).inserted = some r1 →
        (process_job env2 body).inserted = some r2 →
        env1.uuid ≠ env2.uuid → r1.«_id» ≠ r2.«_id» := by
  constructor
  · exact fun env body r h => (run_facts env body).2.2.2.1 r h
  · intro env1 env2 body r1 r2 h1 h2 hne
    have e1 := (run_facts env1 body).2.2.2.1 r1 h1
    have e2 := (run_facts env2 body).2.2.2.1 r2 h2
    rw [e1, e2]
    exact hne

/-- C9 witness: redelivering the same body under two attempts with fresh
uuids "uuid-a" and "uuid-b" yields records with different ids. -/
theorem c9_witness :
    ({ «_id» := "uuid-a", chat_id := .jstr "42", original_img_path := "cat.jpg",
       predicted_img_path := "predictions/uuid-a/cat.jpg", labels := [],
       time := 0 } : PredictionRecord).«_id»
    ≠ ({ «_id» := "uuid-b", chat_id := .jstr "42", original_img_path := "cat.jpg",
         predicted_img_path := "predictions/uuid-b/cat.jpg", labels := [],
         time := 0 } : PredictionRecord).«_id» :=
  c9_fresh_id_per_attempt.2
    { envA with labelLines := some [] }
    { envA with labelLines := some [], uuid := "uuid-b" }
    bodyValid
    { «_id» := "uuid-a", chat_id := .jstr "42", original_img_path := "cat.jpg",
      predicted_img_path := "predictions/uuid-a/cat.jpg", labels := [], time := 0 }
    { «_id» := "uuid-b", chat_id := .jstr "42", original_img_path := "cat.jpg",
      predicted_img_path := "predictions/uuid-b/cat.jpg", labels := [], time := 0 }
    rfl rfl (by decide)

/-- C10: `process_job` is total — every exception raised in any stage ends
at its own `except Exception` handler, which logs and pauses one second —
and whenever that handler fires the message was not deleted, so an
unanticipated per-job failure always leads to redelivery, never to message
loss or to an exception escaping to the consumer loop. -/
theorem c10_no_escape_no_ack (env : Env) (body : Option JVal) :
    (process_job env body).caughtTop = true →
      (process_job env body).deleted = false
      ∧ (process_job env body).handlerPaused = true :=
  (run_facts env body).2.2.1

/-- C10 witness: the unparseable-body run is caught, paused, and leaves
the message unacknowledged. -/
theorem c10_witness :
    (process_job envA none).deleted = false
    ∧ (process_job envA none).handlerPaused = true :=
  c10_no_escape_no_ack envA none (by decide)

end Yolo5
